import Mathlib

/-!
Shallow embedding of the ntx probing engine (github.com/catsayer/ntx).

The Go sources embedded here:
  * `pkg/types/common.go` — `Status`, `Protocol`, `IPVersion`;
  * `pkg/stats` (`ComputeRTTStats`) — RTT statistics;
  * `pkg/types/ping.go` — `PingReply`, `Statistics`, `PingResult.UpdateStatistics`;
  * `internal/core/ping/icmp.go`, `internal/core/ping/tcp.go`, `internal/core/ping/http.go`
    — the shared `Ping` batch loop and its finalization, the ICMP per-probe
    receive loop (`pingOnce`), and `Factory.Create`;
  * `pkg/errors/errors.go` — the error taxonomy and `IsPermissionDenied`;
  * `pkg/netutil` — the DNS cache (`dnsCache.get`/`set`, `cloneHost`) and `ResolveHost`;
  * the `trace` package — `ICMPTracer.Trace`, `traceHop`, `probeOnce`,
    and the trace types (`TraceHop.GetSuccessCount`, `TraceResult.AddHop`).

Conventions: Go `time.Duration` values are modelled as nanosecond counts
(`Nat` for the non-negative round-trip times the code produces, `Int` where the
source uses a plain `int`); Go `float64` arithmetic on loss rates and variances
is modelled exactly over `ℚ`; the standard deviation is represented by its
square (the population variance), since the square root of a rational variance
is irrational in general — every claim about the standard deviation is stated
through that square.  Network and scheduling nondeterminism is supplied by
explicit environment records (probe oracles, cancellation schedules, received
packet streams).
-/

namespace Ntx

/-- `Status` from `pkg/types/common.go` ("success" / "failure" / "timeout" / "unknown"). -/
inductive Status where
  | success
  | failure
  | timeout
  | unknown
deriving DecidableEq, Repr

/-- `Protocol` from `pkg/types/common.go` ("icmp" / "tcp" / "udp" / "http" / "https"). -/
inductive Protocol where
  | icmp
  | tcp
  | udp
  | http
  | https
deriving DecidableEq, Repr

/-- `IPVersion` from `pkg/types/common.go` (`IPv4 = 4`, `IPv6 = 6`, `IPvAny = 0`). -/
inductive IPVersion where
  | v4
  | v6
  | vAny
deriving DecidableEq, Repr, Inhabited

/-- The numeric value of an `IPVersion` (`int(version)` in Go). -/
def IPVersion.toInt : IPVersion → Int
  | .v4 => 4
  | .v6 => 6
  | .vAny => 0

/-- `PingReply` from `pkg/types/ping.go`.  `RTT` is in nanoseconds. -/
structure PingReply where
  seq : Nat
  fromAddr : String
  bytes : Nat
  ttl : Int
  rtt : Nat
  status : Status
  error : Option String
deriving DecidableEq, Repr

/-- `Statistics` from `pkg/types/common.go`.  `stdDevRTTSq` is the square of
`StdDevRTT` (the population variance), see the header comment. -/
structure Statistics where
  sent : Nat
  received : Nat
  loss : Nat
  lossRate : ℚ
  minRTT : Nat
  maxRTT : Nat
  avgRTT : Nat
  stdDevRTTSq : ℚ
deriving DecidableEq, Repr

/-- `ComputeRTTStats` from `pkg/stats`: linear-scan min/max/sum over the
samples, truncated integer average, population variance against that average.
Returns `(min, max, avg, variance)`; the Go function's `stddev` is the square
root of the fourth component. -/
def ComputeRTTStats (rtts : List Nat) : Nat × Nat × Nat × ℚ :=
  match rtts with
  | [] => (0, 0, 0, 0)
  | r0 :: _ =>
    let mn := rtts.foldl (fun m rtt => if rtt < m then rtt else m) r0
    let mx := rtts.foldl (fun m rtt => if rtt > m then rtt else m) r0
    let sum := rtts.foldl (· + ·) 0
    let avg := sum / rtts.length
    let variance :=
      (rtts.foldl (fun (acc : ℚ) (rtt : Nat) => acc + ((rtt : ℚ) - (avg : ℚ)) ^ 2) 0)
        / (rtts.length : ℚ)
    (mn, mx, avg, variance)

/-- The successful replies' RTTs, in order — the `rtts` slice collected by the
loop in `PingResult.UpdateStatistics` (`pkg/types/ping.go`). -/
def successRTTs (replies : List PingReply) : List Nat :=
  (replies.filter fun r => r.status = Status.success).map PingReply.rtt

/-- `PingResult.UpdateStatistics` from `pkg/types/ping.go`: derives the whole
`Statistics` value from the reply sequence, delegating the RTT aggregates to
`ComputeRTTStats` when at least one probe succeeded and zeroing them
otherwise. -/
def updateStatistics (replies : List PingReply) : Statistics :=
  let sent := replies.length
  let rtts := successRTTs replies
  let received := rtts.length
  let loss := sent - received
  let lossRate : ℚ := if sent > 0 then (loss : ℚ) / (sent : ℚ) * 100 else 0
  let s := if rtts.length > 0 then ComputeRTTStats rtts else (0, 0, 0, 0)
  { sent := sent, received := received, loss := loss, lossRate := lossRate,
    minRTT := s.1, maxRTT := s.2.1, avgRTT := s.2.2.1, stdDevRTTSq := s.2.2.2 }

/-- The error values of `pkg/errors/errors.go` that the probing engine can
produce: the `errors.New` sentinels, `*PermissionError`, `*NetworkError`
(whose `Unwrap` exposes the wrapped error), plus the error a Go context
reports (`ctx.Err()`). -/
inductive PingErr where
  | sentinel (msg : String)
  | permissionError (op resource reason : String)
  | networkError (op target : String) (err : PingErr)
  | contextError (msg : String)
deriving DecidableEq, Repr

/-- `ErrPermissionDenied` from `pkg/errors/errors.go`. -/
def ErrPermissionDenied : PingErr := .sentinel "permission denied"

/-- `ErrDNSResolution` from `pkg/errors/errors.go`. -/
def ErrDNSResolution : PingErr := .sentinel "dns resolution failed"

/-- `ErrNoAddress` from `pkg/errors/errors.go`. -/
def ErrNoAddress : PingErr := .sentinel "no address available"

/-- Modelled from the spec: `errors.ErrNoResponse`, the "no response" sentinel
the Ping finalization installs when zero probes succeeded and no other error
was recorded.  The sentinel is referenced by `icmp.go`/`tcp.go`/`http.go` but
its declaration is not among the provided sources. -/
def ErrNoResponse : PingErr := .sentinel "no response"

/-- `errors.Is` restricted to this error model: identity with the target, else
follow `Unwrap` (only `*NetworkError` unwraps). -/
def errorsIs (e target : PingErr) : Bool :=
  e == target ||
    match e with
    | .networkError _ _ inner => errorsIs inner target
    | _ => false

/-- `IsPermissionDenied` from `pkg/errors/errors.go`: `errors.Is` against the
`ErrPermissionDenied` sentinel, or a `*PermissionError` value. -/
def isPermissionDenied (e : PingErr) : Bool :=
  errorsIs e ErrPermissionDenied ||
    match e with
    | .permissionError _ _ _ => true
    | _ => false

/-- The outcome of one `pingOnce` call, as observed by the batch loop: every
field of the produced `PingReply` except the sequence number, which `pingOnce`
always sets to its `seq` argument. -/
structure ProbeOut where
  fromAddr : String
  bytes : Nat
  ttl : Int
  rtt : Nat
  status : Status
  error : Option String
deriving DecidableEq, Repr

/-- The reply `pingOnce` hands back for iteration `i` (sequence number `i+1`). -/
def mkReply (seq : Nat) (o : ProbeOut) : PingReply :=
  { seq := seq, fromAddr := o.fromAddr, bytes := o.bytes, ttl := o.ttl,
    rtt := o.rtt, status := o.status, error := o.error }

/-- The environment a `Ping` batch run executes in: the network's response to
each probe (indexed by sequence number) and the caller context's cancellation
schedule.  `cancelTop i` is what the `select` at the top of iteration `i`
observes; `cancelWait i` is what the inter-probe interval `select` after
iteration `i` observes; `ctxError` is `ctx.Err()` once cancelled. -/
structure BatchEnv where
  probe : Nat → ProbeOut
  cancelTop : Nat → Bool
  cancelWait : Nat → Bool
  ctxError : PingErr

/-- One iteration step of the `for i := 0; i < opts.Count; i++` loop shared by
`ICMPPinger.Ping`, `TCPPinger.Ping` and `HTTPPinger.Ping`: check cancellation,
run `pingOnce`, append the reply, and (except after the final iteration) wait
out the interval racing against cancellation.  `fuel` is the number of
iterations still to run (`opts.Count - i`); the second component of the result
is the recorded `result.Error` when cancellation cut the batch short
(`goto end` with `Status = Failure`). -/
def pingProbeGo (env : BatchEnv) : Nat → Nat → List PingReply → List PingReply × Option PingErr
  | 0, _, acc => (acc, none)
  | fuel + 1, i, acc =>
    if env.cancelTop i then (acc, some env.ctxError)
    else
      let acc' := acc ++ [mkReply (i + 1) (env.probe (i + 1))]
      if fuel = 0 then (acc', none)
      else if env.cancelWait i then (acc', some env.ctxError)
      else pingProbeGo env fuel (i + 1) acc'

/-- The whole probe loop of a `Ping` call with `opts.Count = count`: zero
iterations when `count <= 0`, else `count` iterations starting at `i = 0`. -/
def pingProbeLoop (env : BatchEnv) (count : Int) : List PingReply × Option PingErr :=
  pingProbeGo env count.toNat 0 []

/-- The observable part of the `PingResult` a `Ping` call returns. -/
structure PingRunResult where
  replies : List PingReply
  statistics : Statistics
  status : Status
  error : Option PingErr
deriving DecidableEq, Repr

/-- The `end:` finalization shared by the three `Ping` implementations
(`icmp.go` 150–164, `tcp.go` 121–135, `http.go`): update the statistics from
the replies; if nothing was received mark the batch `Failure` and install the
no-response sentinel unless an error (the cancellation error) is already
recorded; if some but not all probes succeeded mark it `Timeout`; otherwise
keep the status as it stands (`Success`, or `Failure` when cancellation set
it). -/
def finalizePing (lp : List PingReply × Option PingErr) : PingRunResult :=
  let stats := updateStatistics lp.1
  let status0 : Status := if lp.2.isSome then Status.failure else Status.success
  if stats.received = 0 then
    { replies := lp.1, statistics := stats, status := Status.failure,
      error := match lp.2 with
               | some e => some e
               | none => some ErrNoResponse }
  else if stats.received < stats.sent then
    { replies := lp.1, statistics := stats, status := Status.timeout, error := lp.2 }
  else
    { replies := lp.1, statistics := stats, status := status0, error := lp.2 }

/-- A complete `Ping` batch run (`ICMPPinger.Ping` / `TCPPinger.Ping` /
`HTTPPinger.Ping` after host resolution): the probe loop followed by the
shared finalization. -/
def pingBatchRun (env : BatchEnv) (count : Int) : PingRunResult :=
  finalizePing (pingProbeLoop env count)

/-- `PingOptions` from `pkg/types/ping.go` (the fields the embedded code
reads; durations in nanoseconds). -/
structure PingOptions where
  protocol : Protocol
  count : Int
  interval : Nat
  timeout : Nat
  size : Int
  ttl : Int
  port : Int
  ipVersion : IPVersion
  tos : Int
deriving DecidableEq, Repr

/-- `DefaultTCPPort` from `pkg/types/ports.go`. -/
def DefaultTCPPort : Int := 80

/-- Which concrete pinger `Factory.Create` hands back. -/
inductive PingerKind where
  | icmpPinger
  | tcpPinger
  | httpPinger
deriving DecidableEq, Repr

/-- `Factory.Create` from `internal/core/ping/tcp.go` (lines 267–291).
`icmpConstruct` is the outcome of `NewICMPPinger(opts)` (`none` = success;
in the source its only failure mode is a `*PermissionError` for the raw
socket, but the dispatch is modelled for an arbitrary error).  The function
returns the options as left behind (the fallback branch mutates
`opts.Protocol`) together with either the created pinger or the propagated
error. -/
def factoryCreate (icmpConstruct : Option PingErr) (opts : PingOptions) :
    PingOptions × Except PingErr PingerKind :=
  match opts.protocol with
  | .icmp =>
    match icmpConstruct with
    | none => (opts, .ok .icmpPinger)
    | some e =>
      if isPermissionDenied e then
        ({ opts with protocol := .tcp }, .ok .tcpPinger)
      else
        (opts, .error e)
  | .tcp => (opts, .ok .tcpPinger)
  | .http => (opts, .ok .httpPinger)
  | _ => (opts, .error (.sentinel "unknown protocol"))

/-- The body of an ICMP message as `golang.org/x/net/icmp.ParseMessage`
presents it to this code: either an `*icmp.Echo` (identifier, sequence) or
some other body type. -/
inductive ICMPBody where
  | echo (id seq : Nat)
  | otherBody
deriving DecidableEq, Repr

/-- The message types the receive loops switch on. -/
inductive ICMPMsgType where
  | echoReply
  | destinationUnreachable
  | timeExceeded
  | otherType
deriving DecidableEq, Repr

/-- A parsed ICMP message. -/
structure ICMPMsg where
  type : ICMPMsgType
  body : ICMPBody
deriving DecidableEq, Repr

/-- One event observed by a receive loop: `ReadFrom` returning a timeout
error, `ReadFrom` returning another error, the top-of-loop `ctx.Err()` check
firing, or a datagram (with its parse result, the peer address, the RTT at
arrival, and whether the wall clock is already past the probe's deadline when
the post-switch deadline check runs). -/
inductive RecvEvent where
  | readTimeout
  | readError (msg : String)
  | ctxDone (msg : String)
  | packet (parsed : Option ICMPMsg) (peer : String) (rtt : Nat) (pastDeadline : Bool)
deriving DecidableEq, Repr

/-- The reply value `ICMPPinger.pingOnce` starts from: sequence number, the
probed IP as `From`, the configured size and TTL, `Status = Success`. -/
def pingOnceInit (seq : Nat) (ip : String) (size : Nat) (ttl : Int) : PingReply :=
  { seq := seq, fromAddr := ip, bytes := size, ttl := ttl, rtt := 0,
    status := Status.success, error := none }

/-- The receive loop of `ICMPPinger.pingOnce` (`icmp.go` 298–362) over a
stream of events.  A parse failure `continue`s without reaching the deadline
check; an Echo Reply completes the probe only when its embedded identifier
and sequence match, otherwise control falls through to the deadline check and
the loop keeps reading; Destination-Unreachable and Time-Exceeded terminate
the probe immediately as `Failure` (note: without touching `reply.From`).
`msgLen` is `len(msgBytes)` of the request.  `none` means the event stream
was exhausted with the loop still reading (the real blocking loop always
produces another event). -/
def pingOnceRecv (id seq msgLen : Nat) (init : PingReply) :
    List RecvEvent → Option PingReply
  | [] => none
  | ev :: rest =>
    match ev with
    | .readTimeout => some { init with status := Status.timeout }
    | .readError m => some { init with status := Status.failure, error := some m }
    | .ctxDone m => some { init with status := Status.failure, error := some m }
    | .packet none _ _ _ => pingOnceRecv id seq msgLen init rest
    | .packet (some rm) peer rtt pastDeadline =>
      match rm.type with
      | .echoReply =>
        match rm.body with
        | .echo i s =>
          if i = id ∧ s = seq then
            some { init with rtt := rtt, fromAddr := peer, bytes := msgLen }
          else if pastDeadline then some { init with status := Status.timeout }
          else pingOnceRecv id seq msgLen init rest
        | .otherBody =>
          if pastDeadline then some { init with status := Status.timeout }
          else pingOnceRecv id seq msgLen init rest
      | .destinationUnreachable =>
        some { init with status := Status.failure, error := some "destination unreachable" }
      | .timeExceeded =>
        some { init with status := Status.failure, error := some "time exceeded" }
      | .otherType =>
        if pastDeadline then some { init with status := Status.timeout }
        else pingOnceRecv id seq msgLen init rest

/-- `Host` from `pkg/types`: all fields are plain values (strings and ints),
so `cloneHost`'s shallow struct copy is a full value copy. -/
structure Host where
  hostname : String
  ip : String
  ipVersion : IPVersion
  port : Int
deriving DecidableEq, Repr, Inhabited

/-- A `net.IP` as this code inspects it: its textual form and whether
`To4() != nil`. -/
structure IPAddr where
  str : String
  isV4 : Bool
deriving DecidableEq, Repr

/-- The DNS world `ResolveHost` runs against: `net.ParseIP` and
`net.LookupIP` (`none` = lookup error). -/
structure DNSEnv where
  parseIP : String → Option IPAddr
  lookupIP : String → Option (List IPAddr)

/-- `selectIPByVersion` from `pkg/netutil`: first address matching the
preference; any preference other than v4/v6 takes the first address. -/
def selectIPByVersion (ips : List IPAddr) (version : IPVersion) : Option IPAddr :=
  match ips with
  | [] => none
  | ip :: rest =>
    match version with
    | .v4 => if ip.isV4 then some ip else selectIPByVersion rest version
    | .v6 => if !ip.isV4 then some ip else selectIPByVersion rest version
    | .vAny => some ip

/-- `cacheKey` from `pkg/netutil`: `strings.ToLower(host) + "|" +
strconv.Itoa(int(version))`. -/
def cacheKey (host : String) (version : IPVersion) : String :=
  host.toLower ++ "|" ++ toString version.toInt

/-- `defaultDNSTTL = 5 * time.Minute`, in nanoseconds. -/
def defaultDNSTTL : Nat := 300000000000

/-- The resolver's mutable world: a heap of allocated `Host` cells (`*Host`
values are indices into it) and the cache map `key ↦ (cell address,
expiresAt)`.  Storing addresses — not values — keeps aliasing observable, so
the cloning done by `dnsCache.get`/`set` carries the proof burden. -/
structure ResolverState where
  heap : List Host
  cache : List (String × Nat × Nat)
deriving DecidableEq, Repr

/-- The fresh, empty resolver state (`newDNSCache`). -/
def emptyResolverState : ResolverState := { heap := [], cache := [] }

/-- Allocate a new `Host` cell; returns the new state and the cell's address. -/
def allocHost (st : ResolverState) (h : Host) : ResolverState × Nat :=
  ({ st with heap := st.heap ++ [h] }, st.heap.length)

/-- Dereference a `*Host`. -/
def readHost (st : ResolverState) (a : Nat) : Host :=
  st.heap.getD a default

/-- Mutate the `Host` a caller holds a pointer to (the cache is untouched —
only the heap cell changes). -/
def writeHost (st : ResolverState) (a : Nat) (h : Host) : ResolverState :=
  { st with heap := st.heap.set a h }

/-- `cloneHost` from `pkg/netutil`: allocate a fresh cell holding a copy of
the pointed-to value. -/
def cloneHost (st : ResolverState) (a : Nat) : ResolverState × Nat :=
  allocHost st (readHost st a)

/-- Look a key up in the cache association list. -/
def cacheFind (entries : List (String × Nat × Nat)) (key : String) : Option (Nat × Nat) :=
  match entries with
  | [] => none
  | e :: rest => if e.1 = key then some e.2 else cacheFind rest key

/-- Remove a key from the cache association list (`delete(c.entries, key)`). -/
def cacheErase (entries : List (String × Nat × Nat)) (key : String) :
    List (String × Nat × Nat) :=
  entries.filter fun e => e.1 ≠ key

/-- `dnsCache.get` from `pkg/netutil`: miss on absent key; lazily evict and
miss when `now` is past the entry's expiry; on a live hit return a fresh
clone of the cached cell. -/
def dnsCacheGet (st : ResolverState) (now : Nat) (key : String) :
    ResolverState × Option Nat :=
  match cacheFind st.cache key with
  | none => (st, none)
  | some (addr, expiresAt) =>
    if now > expiresAt then
      ({ st with cache := cacheErase st.cache key }, none)
    else
      let (st', a') := cloneHost st addr
      (st', some a')

/-- `dnsCache.set` from `pkg/netutil`: store a clone of the given host under
the key, expiring `defaultDNSTTL` from now. -/
def dnsCacheSet (st : ResolverState) (now : Nat) (key : String) (a : Nat) :
    ResolverState :=
  let (st', aClone) := cloneHost st a
  { st' with cache := (key, aClone, now + defaultDNSTTL) :: cacheErase st'.cache key }

/-- `ResolveHost` from `pkg/netutil`: IP literals bypass the cache; otherwise
consult the cache, and on a miss look the name up, select an address by
version preference, cache a clone of the result, and return the result. -/
def resolveHost (env : DNSEnv) (now : Nat) (host : String) (ver : IPVersion)
    (st : ResolverState) : ResolverState × Except PingErr Nat :=
  match env.parseIP host with
  | some ip =>
    let v := if ip.isV4 then IPVersion.v4 else IPVersion.v6
    let (st', a) := allocHost st { hostname := host, ip := ip.str, ipVersion := v, port := 0 }
    (st', .ok a)
  | none =>
    let key := cacheKey host ver
    let hit := dnsCacheGet st now key
    match hit.2 with
    | some a => (hit.1, .ok a)
    | none =>
      match env.lookupIP host with
      | none => (hit.1, .error ErrDNSResolution)
      | some [] => (hit.1, .error ErrNoAddress)
      | some (ip0 :: ips) =>
        match selectIPByVersion (ip0 :: ips) ver with
        | none => (hit.1, .error ErrNoAddress)
        | some ip =>
          let v := if ip.isV4 then IPVersion.v4 else IPVersion.v6
          let (st2, aRes) := allocHost hit.1
            { hostname := host, ip := ip.str, ipVersion := v, port := 0 }
          (dnsCacheSet st2 now key aRes, .ok aRes)

/-- The `Host` value `ResolveHost` builds for a looked-up address. -/
def resolvedHost (host : String) (ip : IPAddr) : Host :=
  { hostname := host, ip := ip.str,
    ipVersion := if ip.isV4 then IPVersion.v4 else IPVersion.v6, port := 0 }

/-- `TraceOptions` from the trace types (the fields the tracer reads). -/
structure TraceOptions where
  maxHops : Int
  timeout : Nat
  queries : Int
  packetSize : Int
  ipVersion : IPVersion
  firstTTL : Int
deriving DecidableEq, Repr

/-- `TraceProbe` from the trace types. -/
structure TraceProbe where
  seq : Nat
  ip : String
  rtt : Nat
  status : Status
  error : Option String
deriving DecidableEq, Repr

/-- `TraceHop` from the trace types. -/
structure TraceHop where
  ttl : Int
  probes : List TraceProbe
  ip : String
  hostname : String
  isDestination : Bool
deriving DecidableEq, Repr

/-- `TraceHop.GetSuccessCount`: the number of probes with `Status == Success`. -/
def TraceHop.getSuccessCount (h : TraceHop) : Nat :=
  (h.probes.filter fun p => p.status = Status.success).length

/-- The observable part of a `TraceResult`. -/
structure TraceResult where
  hops : List TraceHop
  reachedDestination : Bool
  hopCount : Nat
  status : Status
  error : Option PingErr
deriving DecidableEq, Repr

/-- `TraceResult.AddHop`: append the hop and refresh `HopCount`. -/
def TraceResult.addHop (r : TraceResult) (hop : TraceHop) : TraceResult :=
  { r with hops := r.hops ++ [hop], hopCount := r.hops.length + 1 }

/-- The environment an `ICMPTracer.Trace` run executes in: the outcome
`probeOnce` produces for each (ttl, seq) pair, and `net.LookupAddr`'s first
name for the best-effort reverse resolution. -/
structure TraceEnv where
  probe : Int → Nat → TraceProbe
  lookupAddr : String → Option String

/-- The body of `ICMPTracer.traceHop`'s query loop: run `probeOnce` (whose
outcome `env.probe` supplies), append the probe, and on the first successful
probe record the hop's IP and hostname and mark the hop as the destination
when the responder IP equals the resolved target IP. -/
def traceHopStep (env : TraceEnv) (targetIP : String) (ttl : Int) (i : Nat)
    (hop : TraceHop) : TraceHop :=
  let probe := env.probe ttl (i + 1)
  let hop1 := { hop with probes := hop.probes ++ [probe] }
  if probe.status = Status.success ∧ hop1.ip = "" then
    let hostname :=
      match env.lookupAddr probe.ip with
      | some n => n
      | none => probe.ip
    let h := { hop1 with ip := probe.ip, hostname := hostname }
    if probe.ip = targetIP then { h with isDestination := true } else h
  else hop1

/-- `ICMPTracer.traceHop`'s query loop over the remaining queries. -/
def traceHopGo (env : TraceEnv) (targetIP : String) (ttl : Int) :
    Nat → Nat → TraceHop → TraceHop
  | 0, _, hop => hop
  | q + 1, i, hop =>
    traceHopGo env targetIP ttl q (i + 1) (traceHopStep env targetIP ttl i hop)

/-- `ICMPTracer.traceHop`: `opts.Queries` probes at the given TTL. -/
def traceHop (env : TraceEnv) (targetIP : String) (ttl : Int) (queries : Int) : TraceHop :=
  traceHopGo env targetIP ttl queries.toNat 0
    { ttl := ttl, probes := [], ip := "", hostname := "", isDestination := false }

/-- The `lastFiveAllFailed` scan in `ICMPTracer.Trace`: the last (up to) five
recorded hops all have zero successful probes. -/
def lastFiveAllFailed (hops : List TraceHop) : Bool :=
  (hops.drop (hops.length - 5)).all fun h => h.getSuccessCount = 0

/-- The TTL loop of `ICMPTracer.Trace` (lines 121–147): record the hop; stop
once a hop marked as the destination is recorded (setting
`ReachedDestination`); otherwise, when the hop had no successful probe, the
current TTL exceeds `FirstTTL+5`, and the last five recorded hops all had
zero successful probes, stop advancing; else move to the next TTL.  `fuel`
is the number of TTL values left (`opts.MaxHops - ttl + 1`). -/
def traceLoopGo (env : TraceEnv) (targetIP : String) (opts : TraceOptions) :
    Nat → Int → TraceResult → TraceResult
  | 0, _, res => res
  | fuel + 1, ttl, res =>
    let hop := traceHop env targetIP ttl opts.queries
    let res1 := res.addHop hop
    if hop.isDestination then { res1 with reachedDestination := true }
    else if hop.getSuccessCount = 0 ∧ ttl > opts.firstTTL + 5 ∧ lastFiveAllFailed res1.hops then
      res1
    else traceLoopGo env targetIP opts fuel (ttl + 1) res1

/-- The `TraceResult` `ICMPTracer.Trace` starts from (`Status` initialized
`Success`, nothing recorded yet, no error). -/
def traceInit : TraceResult :=
  { hops := [], reachedDestination := false, hopCount := 0,
    status := Status.success, error := none }

/-- `ICMPTracer.Trace` after host resolution: run the TTL loop from
`FirstTTL` and classify the overall status — `Failure` when nothing was
recorded and the destination was not reached, `Timeout` when hops were
recorded without reaching the destination, `Success` (the initial value)
otherwise.  The function always returns the result with a `nil` error. -/
def icmpTrace (env : TraceEnv) (targetIP : String) (opts : TraceOptions) : TraceResult :=
  let res := traceLoopGo env targetIP opts (opts.maxHops - opts.firstTTL + 1).toNat
    opts.firstTTL traceInit
  if !res.reachedDestination ∧ res.hopCount = 0 then { res with status := Status.failure }
  else if !res.reachedDestination then { res with status := Status.timeout }
  else res

/-- The probe value `ICMPTracer.probeOnce` starts from. -/
def probeOnceInit (seq : Nat) : TraceProbe :=
  { seq := seq, ip := "", rtt := 0, status := Status.success, error := none }

/-- The receive loop of `ICMPTracer.probeOnce` (trace package, lines
272–329): a matching Echo Reply or a Time-Exceeded message completes the
probe with the responder's address and the RTT, leaving the initial
`Success` status in place; Destination-Unreachable completes it as `Failure`
with the responder's address; a read timeout yields `Timeout`; anything else
is discarded, subject to the post-switch deadline check.  This loop performs
no context checks, so a cancellation event passes by unobserved.  `none`
means the event stream was exhausted with the loop still reading. -/
def probeOnceRecv (id seq : Nat) (init : TraceProbe) :
    List RecvEvent → Option TraceProbe
  | [] => none
  | ev :: rest =>
    match ev with
    | .readTimeout => some { init with status := Status.timeout }
    | .readError m => some { init with status := Status.failure, error := some m }
    | .ctxDone _ => probeOnceRecv id seq init rest
    | .packet none _ _ _ => probeOnceRecv id seq init rest
    | .packet (some rm) peer rtt pastDeadline =>
      match rm.type with
      | .echoReply =>
        match rm.body with
        | .echo i s =>
          if i = id ∧ s = seq then some { init with rtt := rtt, ip := peer }
          else if pastDeadline then some { init with status := Status.timeout }
          else probeOnceRecv id seq init rest
        | .otherBody =>
          if pastDeadline then some { init with status := Status.timeout }
          else probeOnceRecv id seq init rest
      | .timeExceeded => some { init with rtt := rtt, ip := peer }
      | .destinationUnreachable =>
        some { init with
                status := Status.failure
                error := some "destination unreachable"
                ip := peer }
      | .otherType =>
        if pastDeadline then some { init with status := Status.timeout }
        else probeOnceRecv id seq init rest

/-! ## Concrete environments for witnesses and counterexamples -/

/-- A probe outcome that succeeded. -/
def probeOutSuccess : ProbeOut :=
  { fromAddr := "127.0.0.1", bytes := 64, ttl := 64, rtt := 1000000,
    status := Status.success, error := none }

/-- A probe outcome that failed. -/
def probeOutFailure : ProbeOut :=
  { fromAddr := "127.0.0.1", bytes := 0, ttl := 64, rtt := 0,
    status := Status.failure, error := some "connection refused" }

/-- `ctx.Err()` of a cancelled context. -/
def ctxCanceled : PingErr := .contextError "context canceled"

/-- A batch environment whose context is never cancelled and whose probes all
succeed. -/
def envNoCancel : BatchEnv :=
  { probe := fun _ => probeOutSuccess, cancelTop := fun _ => false,
    cancelWait := fun _ => false, ctxError := ctxCanceled }

/-- A batch environment cancelled during the interval wait after the first
probe (which succeeds). -/
def envCancelAfterFirst : BatchEnv :=
  { probe := fun _ => probeOutSuccess, cancelTop := fun _ => false,
    cancelWait := fun _ => true, ctxError := ctxCanceled }

/-- A batch environment where probe 1 succeeds, probe 2 fails, and the
context is observed cancelled at the top of iteration 2. -/
def envCancelMixed : BatchEnv :=
  { probe := fun s => if s = 1 then probeOutSuccess else probeOutFailure,
    cancelTop := fun i => decide (2 ≤ i), cancelWait := fun _ => false,
    ctxError := ctxCanceled }

/-- The permission error `NewICMPPinger` produces when the raw socket cannot
be opened. -/
def permRawSocket : PingErr :=
  .permissionError "icmp ping" "raw socket" "requires elevated privilege"

/-- ICMP ping options with no port configured (`Port = 0`). -/
def icmpOptsNoPort : PingOptions :=
  { protocol := Protocol.icmp, count := 4, interval := 1000000000,
    timeout := 5000000000, size := 64, ttl := 64, port := 0,
    ipVersion := IPVersion.vAny, tos := 0 }

/-- A trace environment in which every probe times out (no terminating ICMP
answer ever arrives). -/
def traceEnvAllFail : TraceEnv :=
  { probe := fun _ q =>
      { seq := q, ip := "", rtt := 0, status := Status.timeout, error := some "timeout" },
    lookupAddr := fun _ => none }

/-- Trace options with `FirstTTL = 1`, `MaxHops = 30`, one query per hop. -/
def traceOptsOneQuery : TraceOptions :=
  { maxHops := 30, timeout := 3000000000, queries := 1, packetSize := 60,
    ipVersion := IPVersion.vAny, firstTTL := 1 }

/-- A DNS environment without IP-literal parsing in which every lookup
returns one IPv4 address. -/
def dnsEnvOneA : DNSEnv :=
  { parseIP := fun _ => none,
    lookupIP := fun _ => some [{ str := "93.184.216.34", isV4 := true }] }

/-! ## Helper lemmas -/

lemma foldlMin_le_init (l : List Nat) :
    ∀ a : Nat, l.foldl (fun m rtt => if rtt < m then rtt else m) a ≤ a := by
  induction l with
  | nil => intro a; simp
  | cons y ys ih =>
    intro a
    simp only [List.foldl_cons]
    refine le_trans (ih _) ?_
    split <;> omega

lemma foldlMin_mem (l : List Nat) :
    ∀ a : Nat, l.foldl (fun m rtt => if rtt < m then rtt else m) a = a ∨
      l.foldl (fun m rtt => if rtt < m then rtt else m) a ∈ l := by
  induction l with
  | nil => intro a; left; rfl
  | cons y ys ih =>
    intro a
    simp only [List.foldl_cons]
    rcases ih (if y < a then y else a) with h | h
    · rw [h]
      split
      · right; exact List.mem_cons_self _ _
      · left; rfl
    · right; exact List.mem_cons_of_mem _ h

lemma foldlMin_le_mem (l : List Nat) :
    ∀ a x : Nat, x ∈ l → l.foldl (fun m rtt => if rtt < m then rtt else m) a ≤ x := by
  induction l with
  | nil => intro a x hx; cases hx
  | cons y ys ih =>
    intro a x hx
    simp only [List.foldl_cons]
    rcases List.mem_cons.mp hx with rfl | hx'
    · refine le_trans (foldlMin_le_init ys _) ?_
      split <;> omega
    · exact ih _ _ hx'

lemma foldlMax_init_le (l : List Nat) :
    ∀ a : Nat, a ≤ l.foldl (fun m rtt => if rtt > m then rtt else m) a := by
  induction l with
  | nil => intro a; simp
  | cons y ys ih =>
    intro a
    simp only [List.foldl_cons]
    refine le_trans ?_ (ih _)
    split <;> omega

lemma foldlMax_mem (l : List Nat) :
    ∀ a : Nat, l.foldl (fun m rtt => if rtt > m then rtt else m) a = a ∨
      l.foldl (fun m rtt => if rtt > m then rtt else m) a ∈ l := by
  induction l with
  | nil => intro a; left; rfl
  | cons y ys ih =>
    intro a
    simp only [List.foldl_cons]
    rcases ih (if y > a then y else a) with h | h
    · rw [h]
      split
      · right; exact List.mem_cons_self _ _
      · left; rfl
    · right; exact List.mem_cons_of_mem _ h

lemma foldlMax_mem_le (l : List Nat) :
    ∀ a x : Nat, x ∈ l → x ≤ l.foldl (fun m rtt => if rtt > m then rtt else m) a := by
  induction l with
  | nil => intro a x hx; cases hx
  | cons y ys ih =>
    intro a x hx
    simp only [List.foldl_cons]
    rcases List.mem_cons.mp hx with rfl | hx'
    · refine le_trans ?_ (foldlMax_init_le ys _)
      split <;> omega
    · exact ih _ _ hx'

lemma foldl_add_eq_sum (l : List Nat) :
    ∀ a : Nat, l.foldl (· + ·) a = a + l.sum := by
  induction l with
  | nil => intro a; simp
  | cons y ys ih =>
    intro a
    simp only [List.foldl_cons, List.sum_cons, ih (a + y)]
    omega

lemma foldl_add_map_eq_sum (f : Nat → ℚ) (l : List Nat) :
    ∀ a : ℚ, l.foldl (fun acc rtt => acc + f rtt) a = a + (l.map f).sum := by
  induction l with
  | nil => intro a; simp
  | cons y ys ih =>
    intro a
    simp only [List.foldl_cons, List.map_cons, List.sum_cons, ih (a + f y)]
    ring

lemma computeRTTStats_avg (r0 : Nat) (rest : List Nat) :
    (ComputeRTTStats (r0 :: rest)).2.2.1 = (r0 :: rest).sum / (r0 :: rest).length := by
  simp only [ComputeRTTStats, foldl_add_eq_sum]
  simp

lemma computeRTTStats_variance (r0 : Nat) (rest : List Nat) :
    (ComputeRTTStats (r0 :: rest)).2.2.2
      = (((r0 :: rest).map fun (x : Nat) =>
            ((x : ℚ) - (((ComputeRTTStats (r0 :: rest)).2.2.1 : Nat) : ℚ)) ^ 2).sum)
          / (((r0 :: rest).length : Nat) : ℚ) := by
  simp only [ComputeRTTStats]
  rw [foldl_add_map_eq_sum, zero_add]

lemma updateStatistics_received (replies : List PingReply) :
    (updateStatistics replies).received
      = (replies.filter fun r => r.status = Status.success).length := by
  simp [updateStatistics, successRTTs]

lemma updateStatistics_sent (replies : List PingReply) :
    (updateStatistics replies).sent = replies.length := rfl

lemma received_le_sent (replies : List PingReply) :
    (updateStatistics replies).received ≤ (updateStatistics replies).sent := by
  rw [updateStatistics_received, updateStatistics_sent]
  exact List.length_filter_le _ _

lemma updateStatistics_tuple (replies : List PingReply) :
    ((updateStatistics replies).minRTT, (updateStatistics replies).maxRTT,
      (updateStatistics replies).avgRTT, (updateStatistics replies).stdDevRTTSq)
      = ComputeRTTStats (successRTTs replies) := by
  cases h : successRTTs replies with
  | nil => simp [updateStatistics, h, ComputeRTTStats]
  | cons r0 rest => simp [updateStatistics, h]

lemma computeRTTStats_min_mem (r0 : Nat) (rest : List Nat) :
    (ComputeRTTStats (r0 :: rest)).1 ∈ r0 :: rest := by
  show List.foldl (fun m rtt => if rtt < m then rtt else m) r0 (r0 :: rest) ∈ r0 :: rest
  rcases foldlMin_mem (r0 :: rest) r0 with h | h
  · rw [h]; exact List.mem_cons_self _ _
  · exact h

lemma computeRTTStats_min_le (r0 : Nat) (rest : List Nat) :
    ∀ x ∈ r0 :: rest, (ComputeRTTStats (r0 :: rest)).1 ≤ x := by
  intro x hx
  exact foldlMin_le_mem (r0 :: rest) r0 x hx

lemma computeRTTStats_max_mem (r0 : Nat) (rest : List Nat) :
    (ComputeRTTStats (r0 :: rest)).2.1 ∈ r0 :: rest := by
  show List.foldl (fun m rtt => if rtt > m then rtt else m) r0 (r0 :: rest) ∈ r0 :: rest
  rcases foldlMax_mem (r0 :: rest) r0 with h | h
  · rw [h]; exact List.mem_cons_self _ _
  · exact h

lemma computeRTTStats_max_le (r0 : Nat) (rest : List Nat) :
    ∀ x ∈ r0 :: rest, x ≤ (ComputeRTTStats (r0 :: rest)).2.1 := by
  intro x hx
  exact foldlMax_mem_le (r0 :: rest) r0 x hx

lemma updateStatistics_loss (replies : List PingReply) :
    (updateStatistics replies).loss
      = (updateStatistics replies).sent - (updateStatistics replies).received := rfl

lemma updateStatistics_stdDev_zero (replies : List PingReply)
    (h : (updateStatistics replies).received ≤ 1) :
    (updateStatistics replies).stdDevRTTSq = 0 := by
  have ht := congrArg (fun t : Nat × Nat × Nat × ℚ => t.2.2.2) (updateStatistics_tuple replies)
  simp only at ht
  have hrec : (updateStatistics replies).received = (successRTTs replies).length := by
    simp [updateStatistics]
  cases hr : successRTTs replies with
  | nil => rw [ht, hr]; rfl
  | cons r0 rest =>
    rw [hr] at hrec
    cases rest with
    | cons r1 rs => rw [hrec] at h; simp at h
    | nil =>
      rw [ht, hr]
      show ((List.foldl (fun (acc : ℚ) (rtt : Nat) =>
          acc + ((rtt : ℚ) - (((List.foldl (· + ·) 0 [r0]) / [r0].length : Nat) : ℚ)) ^ 2) 0 [r0])
            / (([r0].length : Nat) : ℚ)) = 0
      norm_num

lemma pingBatchRun_statistics (env : BatchEnv) (count : Int) :
    (pingBatchRun env count).statistics
      = updateStatistics (pingBatchRun env count).replies := by
  by_cases h0 : (updateStatistics (pingProbeLoop env count).1).received = 0
  · simp [pingBatchRun, finalizePing, h0]
  · by_cases h1 : (updateStatistics (pingProbeLoop env count).1).received
        < (updateStatistics (pingProbeLoop env count).1).sent
    · simp [pingBatchRun, finalizePing, h0, h1]
    · simp [pingBatchRun, finalizePing, h0, h1]

/-- C2: after every completed `Ping` call the returned `Statistics` is exactly
the value re-derived from the reply sequence — `Sent` is the number of
replies, `Received` counts the replies with `Status == Success`,
`Sent = Received + Loss`, `LossRate = Loss/Sent*100` when `Sent > 0` and `0`
otherwise, and the RTT aggregates equal `ComputeRTTStats` of the successful
replies' RTTs, where `ComputeRTTStats` of an empty list is all zeros and
otherwise yields the minimum, the maximum, the truncating average
`sum/count`, and the population variance against that average (the standard
deviation represented by its square), whence the deviation vanishes whenever
`Received <= 1`. -/
theorem ping_statistics_rederived (env : BatchEnv) (count : Int)
    (replies : List PingReply) :
    (pingBatchRun env count).statistics = updateStatistics (pingBatchRun env count).replies
    ∧ (updateStatistics replies).sent = replies.length
    ∧ (updateStatistics replies).received
        = (replies.filter fun r => r.status = Status.success).length
    ∧ (updateStatistics replies).sent
        = (updateStatistics replies).received + (updateStatistics replies).loss
    ∧ (updateStatistics replies).lossRate
        = (if 0 < replies.length
           then ((updateStatistics replies).loss : ℚ) / (replies.length : ℚ) * 100
           else 0)
    ∧ ((updateStatistics replies).minRTT, (updateStatistics replies).maxRTT,
        (updateStatistics replies).avgRTT, (updateStatistics replies).stdDevRTTSq)
        = ComputeRTTStats (successRTTs replies)
    ∧ ComputeRTTStats [] = (0, 0, 0, 0)
    ∧ (∀ r0 : Nat, ∀ rest : List Nat,
        (ComputeRTTStats (r0 :: rest)).1 ∈ r0 :: rest
        ∧ (∀ x ∈ r0 :: rest, (ComputeRTTStats (r0 :: rest)).1 ≤ x)
        ∧ (ComputeRTTStats (r0 :: rest)).2.1 ∈ r0 :: rest
        ∧ (∀ x ∈ r0 :: rest, x ≤ (ComputeRTTStats (r0 :: rest)).2.1)
        ∧ (ComputeRTTStats (r0 :: rest)).2.2.1 = (r0 :: rest).sum / (r0 :: rest).length
        ∧ (ComputeRTTStats (r0 :: rest)).2.2.2
            = (((r0 :: rest).map fun (x : Nat) =>
                ((x : ℚ) - (((ComputeRTTStats (r0 :: rest)).2.2.1 : Nat) : ℚ)) ^ 2).sum)
              / (((r0 :: rest).length : Nat) : ℚ))
    ∧ ((updateStatistics replies).received ≤ 1 →
        (updateStatistics replies).stdDevRTTSq = 0) := by
  refine ⟨pingBatchRun_statistics env count, rfl, updateStatistics_received replies,
    ?_, ?_, updateStatistics_tuple replies, rfl, ?_, updateStatistics_stdDev_zero replies⟩
  · have hle := received_le_sent replies
    rw [updateStatistics_loss]
    omega
  · rfl
  · intro r0 rest
    exact ⟨computeRTTStats_min_mem r0 rest, computeRTTStats_min_le r0 rest,
      computeRTTStats_max_mem r0 rest, computeRTTStats_max_le r0 rest,
      computeRTTStats_avg r0 rest, computeRTTStats_variance r0 rest⟩

/-- Witness for `ping_statistics_rederived`, discharging its inner hypothesis
at a one-reply batch. -/
theorem ping_statistics_rederived_witness :
    (updateStatistics [⟨1, "127.0.0.1", 64, 64, 5000000, Status.success, none⟩]).stdDevRTTSq
      = 0 :=
  (ping_statistics_rederived envNoCancel 1
      [⟨1, "127.0.0.1", 64, 64, 5000000, Status.success, none⟩]).2.2.2.2.2.2.2.2
    (by decide)

lemma finalizePing_replies (lp : List PingReply × Option PingErr) :
    (finalizePing lp).replies = lp.1 := by
  simp only [finalizePing]
  split
  · rfl
  · split <;> rfl

lemma pingProbeGo_noCancel (env : BatchEnv) (hTop : ∀ i, env.cancelTop i = false)
    (hWait : ∀ i, env.cancelWait i = false) :
    ∀ (fuel i : Nat) (acc : List PingReply),
      pingProbeGo env fuel i acc
        = (acc ++ (List.range fuel).map fun j => mkReply (i + j + 1) (env.probe (i + j + 1)),
           none) := by
  intro fuel
  induction fuel with
  | zero => intro i acc; simp [pingProbeGo]
  | succ fuel ih =>
    intro i acc
    have step : pingProbeGo env (fuel + 1) i acc
        = (if env.cancelTop i then (acc, some env.ctxError)
           else if fuel = 0 then (acc ++ [mkReply (i + 1) (env.probe (i + 1))], none)
           else if env.cancelWait i then
             (acc ++ [mkReply (i + 1) (env.probe (i + 1))], some env.ctxError)
           else pingProbeGo env fuel (i + 1) (acc ++ [mkReply (i + 1) (env.probe (i + 1))])) :=
      rfl
    rw [step]
    simp only [hTop, hWait, Bool.false_eq_true, if_false]
    by_cases hf : fuel = 0
    · subst hf
      simp [List.range_succ]
    · rw [if_neg hf, ih (i + 1)]
      rw [List.range_succ_eq_map fuel]
      simp only [List.map_cons, List.map_map, List.append_assoc, List.cons_append,
        List.nil_append, Nat.add_zero]
      have hfg : List.map (fun j => mkReply (i + 1 + j + 1) (env.probe (i + 1 + j + 1)))
            (List.range fuel)
          = List.map ((fun j => mkReply (i + j + 1) (env.probe (i + j + 1))) ∘ Nat.succ)
            (List.range fuel) := by
        apply List.map_congr_left
        intro j _
        simp only [Function.comp, Nat.succ_eq_add_one]
        have h : i + 1 + j + 1 = i + (j + 1) + 1 := by omega
        rw [h]
      rw [hfg]

/-- C1 (amended): with a context that is never cancelled, a `Ping` call with
`Count = N > 0` performs exactly `N` probes — one per sequence number `1..N`
— and returns `Statistics.Sent = N` with `Statistics.Received <= N`; but for
`Count <= 0` the batch `Ping` issues no probe at all and returns immediately
with `Sent = 0` (only `PingStream` treats `Count <= 0` as "probe until the
context is cancelled"). -/
theorem ping_count_exact (env : BatchEnv) (count : Int)
    (hTop : ∀ i, env.cancelTop i = false) (hWait : ∀ i, env.cancelWait i = false) :
    ((pingBatchRun env count).statistics.sent = count.toNat
      ∧ (pingBatchRun env count).statistics.received ≤ count.toNat
      ∧ (pingBatchRun env count).replies.length = count.toNat
      ∧ ∀ j : Nat, ∀ hj : j < (pingBatchRun env count).replies.length,
          ((pingBatchRun env count).replies.get ⟨j, hj⟩).seq = j + 1)
    ∧ (count ≤ 0 → (pingBatchRun env count).replies = []
        ∧ (pingBatchRun env count).statistics.sent = 0) := by
  have hrepl : (pingBatchRun env count).replies
      = (List.range count.toNat).map fun j => mkReply (j + 1) (env.probe (j + 1)) := by
    show (finalizePing (pingProbeLoop env count)).replies = _
    rw [finalizePing_replies, pingProbeLoop, pingProbeGo_noCancel env hTop hWait]
    simp
  have hsent : (pingBatchRun env count).statistics.sent = count.toNat := by
    rw [pingBatchRun_statistics, updateStatistics_sent, hrepl]
    simp
  have hlen : (pingBatchRun env count).replies.length = count.toNat := by
    rw [hrepl]; simp
  refine ⟨⟨hsent, ?_, hlen, ?_⟩, ?_⟩
  · have h1 : (pingBatchRun env count).statistics.received
        ≤ (pingBatchRun env count).replies.length := by
      rw [pingBatchRun_statistics, updateStatistics_received]
      exact List.length_filter_le _ _
    omega
  · intro j hj
    have hj' : j < count.toNat := by
      rw [hrepl] at hj; simpa using hj
    simp [hrepl, mkReply]
  · intro hc
    have h0 : count.toNat = 0 := by omega
    constructor
    · rw [hrepl, h0]; rfl
    · rw [hsent, h0]

/-- C1 counterexample: with `Count = 0` and a context that is never
cancelled, `Ping` issues no probe and returns immediately with `Sent = 0`
(status `Failure`, error the no-response sentinel) — it does not keep
probing until the context is cancelled; that behaviour belongs to
`PingStream` only. -/
theorem ping_count_zero_counterexample :
    (pingBatchRun envNoCancel 0).replies = []
      ∧ (pingBatchRun envNoCancel 0).statistics.sent = 0
      ∧ (pingBatchRun envNoCancel 0).status = Status.failure
      ∧ (pingBatchRun envNoCancel 0).error = some ErrNoResponse := by
  decide

/-- Witness for `ping_count_exact` at `Count = 3` with a never-cancelled
context. -/
theorem ping_count_exact_witness :
    (pingBatchRun envNoCancel 3).statistics.sent = (3 : Int).toNat
      ∧ (pingBatchRun envNoCancel 3).statistics.received ≤ (3 : Int).toNat
      ∧ (pingBatchRun envNoCancel 3).replies.length = (3 : Int).toNat :=
  ⟨(ping_count_exact envNoCancel 3 (fun _ => rfl) (fun _ => rfl)).1.1,
   (ping_count_exact envNoCancel 3 (fun _ => rfl) (fun _ => rfl)).1.2.1,
   (ping_count_exact envNoCancel 3 (fun _ => rfl) (fun _ => rfl)).1.2.2.1⟩

lemma finalizePing_zero (lp : List PingReply × Option PingErr)
    (h : (updateStatistics lp.1).received = 0) :
    (finalizePing lp).status = Status.failure
      ∧ (finalizePing lp).error = some (lp.2.getD ErrNoResponse) := by
  simp only [finalizePing]
  rw [if_pos h]
  refine ⟨rfl, ?_⟩
  cases h2 : lp.2 <;> simp [h2]

lemma finalizePing_mixed (lp : List PingReply × Option PingErr)
    (h0 : ¬ (updateStatistics lp.1).received = 0)
    (h1 : (updateStatistics lp.1).received < (updateStatistics lp.1).sent) :
    (finalizePing lp).status = Status.timeout ∧ (finalizePing lp).error = lp.2 := by
  simp only [finalizePing]
  rw [if_neg h0, if_pos h1]
  exact ⟨rfl, rfl⟩

lemma finalizePing_full (lp : List PingReply × Option PingErr)
    (h0 : ¬ (updateStatistics lp.1).received = 0)
    (h1 : ¬ (updateStatistics lp.1).received < (updateStatistics lp.1).sent) :
    (finalizePing lp).status = (if lp.2.isSome then Status.failure else Status.success)
      ∧ (finalizePing lp).error = lp.2 := by
  simp only [finalizePing]
  rw [if_neg h0, if_neg h1]
  exact ⟨rfl, rfl⟩

lemma pingBatchRun_statistics_loop (env : BatchEnv) (count : Int) :
    (pingBatchRun env count).statistics = updateStatistics (pingProbeLoop env count).1 := by
  rw [pingBatchRun_statistics]
  exact congrArg updateStatistics (finalizePing_replies (pingProbeLoop env count))

/-- C3 (amended): the aggregate status of a `Ping` batch is `Failure` when
zero probes succeeded (with `Error` set to the cancellation error if one was
recorded, else the no-response sentinel), `Timeout` when some but not all of
the issued probes succeeded, and — when all issued probes succeeded —
`Success` unless cancellation was observed, in which case the status remains
`Failure`. -/
theorem ping_aggregate_status (env : BatchEnv) (count : Int) :
    ((pingBatchRun env count).statistics.received = 0 →
        (pingBatchRun env count).status = Status.failure
        ∧ (pingBatchRun env count).error
            = some ((pingProbeLoop env count).2.getD ErrNoResponse))
    ∧ (0 < (pingBatchRun env count).statistics.received →
        (pingBatchRun env count).statistics.received
            < (pingBatchRun env count).statistics.sent →
        (pingBatchRun env count).status = Status.timeout)
    ∧ (0 < (pingBatchRun env count).statistics.received →
        (pingBatchRun env count).statistics.received
            = (pingBatchRun env count).statistics.sent →
        (pingBatchRun env count).status
          = (if (pingProbeLoop env count).2.isSome then Status.failure
             else Status.success)) := by
  have hst := pingBatchRun_statistics_loop env count
  refine ⟨?_, ?_, ?_⟩
  · intro h0
    rw [hst] at h0
    exact finalizePing_zero (pingProbeLoop env count) h0
  · intro hpos hlt
    rw [hst] at hpos hlt
    exact (finalizePing_mixed (pingProbeLoop env count) (by omega) hlt).1
  · intro hpos heq
    rw [hst] at hpos heq
    exact (finalizePing_full (pingProbeLoop env count) (by omega) (by omega)).1

/-- C3 counterexample: a batch of `Count = 3` cancelled during the interval
after its first probe, which succeeded.  Every issued probe succeeded
(`Received = Sent = 1`), yet the returned status is `Failure` (the
cancellation marking survives finalization), not `Success` — and not
`Timeout` either under the reading "some but not all of the `Count`
probes succeeded". -/
theorem ping_status_cancel_counterexample :
    (pingBatchRun envCancelAfterFirst 3).statistics.sent = 1
      ∧ (pingBatchRun envCancelAfterFirst 3).statistics.received = 1
      ∧ (pingBatchRun envCancelAfterFirst 3).status = Status.failure
      ∧ (pingBatchRun envCancelAfterFirst 3).error = some ctxCanceled := by
  decide

/-- Witness for `ping_aggregate_status`, discharging its first hypothesis at
a zero-probe batch. -/
theorem ping_aggregate_status_witness :
    (pingBatchRun envNoCancel 0).status = Status.failure :=
  ((ping_aggregate_status envNoCancel 0).1 (by decide)).1

lemma pingProbeGo_succ (env : BatchEnv) (fuel i : Nat) (acc : List PingReply) :
    pingProbeGo env (fuel + 1) i acc
      = (if env.cancelTop i then (acc, some env.ctxError)
         else if fuel = 0 then (acc ++ [mkReply (i + 1) (env.probe (i + 1))], none)
         else if env.cancelWait i then
           (acc ++ [mkReply (i + 1) (env.probe (i + 1))], some env.ctxError)
         else pingProbeGo env fuel (i + 1) (acc ++ [mkReply (i + 1) (env.probe (i + 1))])) :=
  rfl

lemma pingProbeGo_cancel_short (env : BatchEnv) :
    ∀ (fuel i : Nat) (acc : List PingReply),
      (pingProbeGo env fuel i acc).2.isSome = true →
      (pingProbeGo env fuel i acc).1.length < acc.length + fuel := by
  intro fuel
  induction fuel with
  | zero => intro i acc h; simp [pingProbeGo] at h
  | succ fuel ih =>
    intro i acc h
    rw [pingProbeGo_succ] at h ⊢
    by_cases ct : env.cancelTop i
    · simp [ct]
    · by_cases hf : fuel = 0
      · simp [ct, hf] at h
      · by_cases cw : env.cancelWait i
        · simp [ct, hf, cw]
          omega
        · simp only [ct, cw, hf, Bool.false_eq_true, if_false, if_neg hf] at h ⊢
          have := ih (i + 1) (acc ++ [mkReply (i + 1) (env.probe (i + 1))]) h
          simp at this
          omega

lemma pingProbeGo_error_val (env : BatchEnv) :
    ∀ (fuel i : Nat) (acc : List PingReply) (e : PingErr),
      (pingProbeGo env fuel i acc).2 = some e → e = env.ctxError := by
  intro fuel
  induction fuel with
  | zero => intro i acc e h; simp [pingProbeGo] at h
  | succ fuel ih =>
    intro i acc e h
    rw [pingProbeGo_succ] at h
    by_cases ct : env.cancelTop i
    · simp [ct] at h
      exact h.symm
    · by_cases hf : fuel = 0
      · simp [ct, hf] at h
      · by_cases cw : env.cancelWait i
        · simp [ct, hf, cw] at h
          exact h.symm
        · simp only [ct, cw, hf, Bool.false_eq_true, if_false, if_neg hf] at h
          exact ih (i + 1) _ e h

/-- C4 (amended): when the caller's context is observed cancelled during a
`Ping` batch, the batch stops early — strictly fewer than `Count` probes are
issued — and the returned result carries the context's error; the final
status is `Failure` unless the issued probes were partly but not fully
successful, in which case the shared finalization reclassifies the result as
`Timeout`. -/
theorem ping_cancellation_stops_early (env : BatchEnv) (count : Int)
    (hc : (pingProbeLoop env count).2.isSome = true) :
    (pingBatchRun env count).replies.length < count.toNat
      ∧ (pingBatchRun env count).error = some env.ctxError
      ∧ (pingBatchRun env count).status
          = (if 0 < (pingBatchRun env count).statistics.received
                ∧ (pingBatchRun env count).statistics.received
                    < (pingBatchRun env count).statistics.sent
             then Status.timeout else Status.failure) := by
  have hst := pingBatchRun_statistics_loop env count
  obtain ⟨e, he⟩ := Option.isSome_iff_exists.mp hc
  have hev : e = env.ctxError := pingProbeGo_error_val env count.toNat 0 [] e he
  subst hev
  have hrepl : (pingBatchRun env count).replies = (pingProbeLoop env count).1 :=
    finalizePing_replies (pingProbeLoop env count)
  have hlen : (pingProbeLoop env count).1.length < count.toNat := by
    have := pingProbeGo_cancel_short env count.toNat 0 [] hc
    simpa using this
  refine ⟨by rw [hrepl]; exact hlen, ?_, ?_⟩
  · by_cases h0 : (updateStatistics (pingProbeLoop env count).1).received = 0
    · have := (finalizePing_zero (pingProbeLoop env count) h0).2
      rw [he] at this
      simpa using this
    · by_cases h1 : (updateStatistics (pingProbeLoop env count).1).received
          < (updateStatistics (pingProbeLoop env count).1).sent
      · have := (finalizePing_mixed (pingProbeLoop env count) h0 h1).2
        rw [he] at this
        exact this
      · have := (finalizePing_full (pingProbeLoop env count) h0 h1).2
        rw [he] at this
        exact this
  · by_cases h0 : (updateStatistics (pingProbeLoop env count).1).received = 0
    · have hs := (finalizePing_zero (pingProbeLoop env count) h0).1
      rw [hst]
      rw [if_neg (by omega)]
      exact hs
    · by_cases h1 : (updateStatistics (pingProbeLoop env count).1).received
          < (updateStatistics (pingProbeLoop env count).1).sent
      · have hs := (finalizePing_mixed (pingProbeLoop env count) h0 h1).1
        rw [hst]
        rw [if_pos (by omega)]
        exact hs
      · have hs := (finalizePing_full (pingProbeLoop env count) h0 h1).1
        rw [hst]
        rw [if_neg (by omega)]
        show (finalizePing (pingProbeLoop env count)).status = Status.failure
        rw [hs, he]
        rfl

/-- C4 counterexample: `Count = 5`, probe 1 succeeds, probe 2 fails, and the
context is observed cancelled at the top of iteration 2.  The batch stops
early (2 of 5 probes issued) and `Error` carries the cancellation error, but
the returned status is `Timeout`, not the claimed `Failure`: the
finalization reclassifies the mixed batch. -/
theorem ping_cancel_status_counterexample :
    (pingBatchRun envCancelMixed 5).status = Status.timeout
      ∧ (pingBatchRun envCancelMixed 5).error = some ctxCanceled
      ∧ (pingBatchRun envCancelMixed 5).replies.length = 2 := by
  decide

/-- Witness for `ping_cancellation_stops_early` at the mixed cancelled
batch. -/
theorem ping_cancellation_stops_early_witness :
    (pingBatchRun envCancelMixed 5).replies.length < (5 : Int).toNat
      ∧ (pingBatchRun envCancelMixed 5).error = some envCancelMixed.ctxError :=
  ⟨(ping_cancellation_stops_early envCancelMixed 5 (by decide)).1,
   (ping_cancellation_stops_early envCancelMixed 5 (by decide)).2.1⟩

/-- C5 (amended): when ICMP pinger construction fails with a
permission-classified error, `Factory.Create` rewrites `options.Protocol` to
TCP and returns a `TCPPinger` with no error surfaced — but it leaves
`options.Port` untouched (the default port is applied later, by the
TCPPinger itself, when a target carries no explicit port); any
non-permission construction failure is propagated, and for TCP or HTTP the
corresponding pinger is constructed directly. -/
theorem factory_permission_fallback (opts : PingOptions) (e : PingErr) :
    (opts.protocol = Protocol.icmp → isPermissionDenied e = true →
        factoryCreate (some e) opts
          = ({ opts with protocol := Protocol.tcp }, Except.ok PingerKind.tcpPinger)
        ∧ (factoryCreate (some e) opts).1.port = opts.port)
    ∧ (opts.protocol = Protocol.icmp → isPermissionDenied e = false →
        factoryCreate (some e) opts = (opts, Except.error e))
    ∧ (opts.protocol = Protocol.icmp →
        factoryCreate none opts = (opts, Except.ok PingerKind.icmpPinger))
    ∧ (∀ c : Option PingErr, opts.protocol = Protocol.tcp →
        factoryCreate c opts = (opts, Except.ok PingerKind.tcpPinger))
    ∧ (∀ c : Option PingErr, opts.protocol = Protocol.http →
        factoryCreate c opts = (opts, Except.ok PingerKind.httpPinger)) := by
  obtain ⟨pr, cnt, itv, tmo, sz, ttl, pt, ipv, tos⟩ := opts
  refine ⟨?_, ?_, ?_, ?_, ?_⟩
  · intro hp hperm
    cases pr <;> simp_all [factoryCreate]
  · intro hp hperm
    cases pr <;> simp_all [factoryCreate]
  · intro hp
    cases pr <;> simp_all [factoryCreate]
  · intro c hp
    cases pr <;> simp_all [factoryCreate]
  · intro c hp
    cases pr <;> simp_all [factoryCreate]

/-- C5 counterexample: ICMP options with `Port = 0` (unset) and a
permission-denied construction failure.  The factory rewrites the protocol
to TCP and returns a TCPPinger with no error, but it does *not* assign the
default port: `Port` is still `0`, not `DefaultTCPPort = 80`. -/
theorem factory_port_counterexample :
    (factoryCreate (some permRawSocket) icmpOptsNoPort).1.protocol = Protocol.tcp
      ∧ (factoryCreate (some permRawSocket) icmpOptsNoPort).2
          = Except.ok PingerKind.tcpPinger
      ∧ (factoryCreate (some permRawSocket) icmpOptsNoPort).1.port = 0
      ∧ (factoryCreate (some permRawSocket) icmpOptsNoPort).1.port ≠ DefaultTCPPort := by
  refine ⟨rfl, rfl, rfl, by decide⟩

/-- Witness for `factory_permission_fallback` at the permission-denied ICMP
construction failure. -/
theorem factory_permission_fallback_witness :
    factoryCreate (some permRawSocket) icmpOptsNoPort
      = ({ icmpOptsNoPort with protocol := Protocol.tcp },
         Except.ok PingerKind.tcpPinger) :=
  ((factory_permission_fallback icmpOptsNoPort permRawSocket).1 rfl (by decide)).1

lemma pingOnceRecv_success_only (id seq msgLen : Nat) (ip : String) (size : Nat)
    (ttl : Int) :
    ∀ (events : List RecvEvent) (r : PingReply),
      pingOnceRecv id seq msgLen (pingOnceInit seq ip size ttl) events = some r →
      r.status = Status.success →
      ∃ q : String, ∃ u : Nat, ∃ d : Bool,
        RecvEvent.packet (some ⟨ICMPMsgType.echoReply, ICMPBody.echo id seq⟩) q u d ∈ events
        ∧ r = { pingOnceInit seq ip size ttl with
                  rtt := u, fromAddr := q, bytes := msgLen } := by
  intro events
  induction events with
  | nil => intro r h _; simp [pingOnceRecv] at h
  | cons ev rest ih =>
    intro r h hs
    cases ev with
    | readTimeout =>
      simp only [pingOnceRecv] at h
      injection h with h2
      rw [← h2] at hs
      simp [pingOnceInit] at hs
    | readError m =>
      simp only [pingOnceRecv] at h
      injection h with h2
      rw [← h2] at hs
      simp [pingOnceInit] at hs
    | ctxDone m =>
      simp only [pingOnceRecv] at h
      injection h with h2
      rw [← h2] at hs
      simp [pingOnceInit] at hs
    | packet parsed peer rtt pd =>
      cases parsed with
      | none =>
        simp only [pingOnceRecv] at h
        obtain ⟨q, u, d, hm, hr⟩ := ih r h hs
        exact ⟨q, u, d, List.mem_cons_of_mem _ hm, hr⟩
      | some rm =>
        obtain ⟨mt, mb⟩ := rm
        cases mt with
        | echoReply =>
          cases mb with
          | echo i s =>
            by_cases hm : i = id ∧ s = seq
            · simp only [pingOnceRecv, if_pos hm] at h
              injection h with h2
              obtain ⟨rfl, rfl⟩ := hm
              exact ⟨peer, rtt, pd, List.mem_cons_self _ _, h2.symm⟩
            · cases pd with
              | true =>
                simp only [pingOnceRecv, if_neg hm, if_pos rfl] at h
                injection h with h2
                rw [← h2] at hs
                simp [pingOnceInit] at hs
              | false =>
                simp only [pingOnceRecv, if_neg hm, Bool.false_eq_true, if_false] at h
                obtain ⟨q, u, d, hmem, hr⟩ := ih r h hs
                exact ⟨q, u, d, List.mem_cons_of_mem _ hmem, hr⟩
          | otherBody =>
            cases pd with
            | true =>
              simp only [pingOnceRecv, if_pos rfl] at h
              injection h with h2
              rw [← h2] at hs
              simp [pingOnceInit] at hs
            | false =>
              simp only [pingOnceRecv, Bool.false_eq_true, if_false] at h
              obtain ⟨q, u, d, hmem, hr⟩ := ih r h hs
              exact ⟨q, u, d, List.mem_cons_of_mem _ hmem, hr⟩
        | destinationUnreachable =>
          simp only [pingOnceRecv] at h
          injection h with h2
          rw [← h2] at hs
          simp [pingOnceInit] at hs
        | timeExceeded =>
          simp only [pingOnceRecv] at h
          injection h with h2
          rw [← h2] at hs
          simp [pingOnceInit] at hs
        | otherType =>
          cases pd with
          | true =>
            simp only [pingOnceRecv, if_pos rfl] at h
            injection h with h2
            rw [← h2] at hs
            simp [pingOnceInit] at hs
          | false =>
            simp only [pingOnceRecv, Bool.false_eq_true, if_false] at h
            obtain ⟨q, u, d, hmem, hr⟩ := ih r h hs
            exact ⟨q, u, d, List.mem_cons_of_mem _ hmem, hr⟩

/-- C6 (amended): the ICMP pinger's per-probe receive loop completes the
probe as `Success` only on an Echo Reply whose embedded identifier and
sequence both match; every other parsed reply — a non-matching Echo Reply, a
foreign body, an unparseable datagram, an unrelated type — is silently
discarded and reading continues (until the deadline check flags `Timeout`);
a Time-Exceeded or Destination-Unreachable message terminates the probe
immediately as `Failure` with a descriptive error, but the outcome's `From`
field keeps the probed target's address — the originating router's address
is *not* recorded by the pinger (only the tracer's `probeOnce` records
it). -/
theorem pingOnce_receive_filtering (id seq msgLen : Nat) (ip : String) (size : Nat)
    (ttl : Int) (peer : String) (rtt : Nat) (pd : Bool) (i s : Nat)
    (body : ICMPBody) (events : List RecvEvent) :
    (pingOnceRecv id seq msgLen (pingOnceInit seq ip size ttl)
        (RecvEvent.packet (some ⟨ICMPMsgType.echoReply, ICMPBody.echo id seq⟩) peer rtt pd
          :: events)
      = some { pingOnceInit seq ip size ttl with
                 rtt := rtt, fromAddr := peer, bytes := msgLen })
    ∧ (¬(i = id ∧ s = seq) →
        pingOnceRecv id seq msgLen (pingOnceInit seq ip size ttl)
            (RecvEvent.packet (some ⟨ICMPMsgType.echoReply, ICMPBody.echo i s⟩) peer rtt false
              :: events)
          = pingOnceRecv id seq msgLen (pingOnceInit seq ip size ttl) events)
    ∧ (pingOnceRecv id seq msgLen (pingOnceInit seq ip size ttl)
          (RecvEvent.packet (some ⟨ICMPMsgType.otherType, body⟩) peer rtt false :: events)
        = pingOnceRecv id seq msgLen (pingOnceInit seq ip size ttl) events)
    ∧ (pingOnceRecv id seq msgLen (pingOnceInit seq ip size ttl)
          (RecvEvent.packet none peer rtt pd :: events)
        = pingOnceRecv id seq msgLen (pingOnceInit seq ip size ttl) events)
    ∧ (¬(i = id ∧ s = seq) →
        pingOnceRecv id seq msgLen (pingOnceInit seq ip size ttl)
            (RecvEvent.packet (some ⟨ICMPMsgType.echoReply, ICMPBody.echo i s⟩) peer rtt true
              :: events)
          = some { pingOnceInit seq ip size ttl with status := Status.timeout })
    ∧ (pingOnceRecv id seq msgLen (pingOnceInit seq ip size ttl)
          (RecvEvent.packet (some ⟨ICMPMsgType.timeExceeded, body⟩) peer rtt pd :: events)
        = some { pingOnceInit seq ip size ttl with
                   status := Status.failure, error := some "time exceeded" })
    ∧ (pingOnceRecv id seq msgLen (pingOnceInit seq ip size ttl)
          (RecvEvent.packet (some ⟨ICMPMsgType.destinationUnreachable, body⟩) peer rtt pd
            :: events)
        = some { pingOnceInit seq ip size ttl with
                   status := Status.failure, error := some "destination unreachable" })
    ∧ (∀ r : PingReply,
        pingOnceRecv id seq msgLen (pingOnceInit seq ip size ttl) events = some r →
        r.status = Status.success →
        ∃ q : String, ∃ u : Nat, ∃ d : Bool,
          RecvEvent.packet (some ⟨ICMPMsgType.echoReply, ICMPBody.echo id seq⟩) q u d
              ∈ events
          ∧ r = { pingOnceInit seq ip size ttl with
                    rtt := u, fromAddr := q, bytes := msgLen }) := by
  refine ⟨?_, ?_, ?_, rfl, ?_, ?_, ?_, pingOnceRecv_success_only id seq msgLen ip size ttl events⟩
  · simp [pingOnceRecv]
  · intro hm
    simp [pingOnceRecv, if_neg hm]
  · cases body <;> simp [pingOnceRecv]
  · intro hm
    simp [pingOnceRecv, if_neg hm]
  · cases body <;> simp [pingOnceRecv]
  · cases body <;> simp [pingOnceRecv]

/-- C6 counterexample: a Time-Exceeded message from router `10.0.0.1` while
probing `93.184.216.34`.  The probe terminates immediately as `Failure`, but
the outcome's `From` field still holds the probed target's address, not the
originating router's address — the pinger (unlike the tracer) never records
the router. -/
theorem pingOnce_router_addr_counterexample :
    pingOnceRecv 7 1 64 (pingOnceInit 1 "93.184.216.34" 64 64)
        [RecvEvent.packet (some ⟨ICMPMsgType.timeExceeded, ICMPBody.otherBody⟩)
          "10.0.0.1" 5000000 false]
      = some { pingOnceInit 1 "93.184.216.34" 64 64 with
                 status := Status.failure, error := some "time exceeded" }
    ∧ (pingOnceInit 1 "93.184.216.34" 64 64).fromAddr = "93.184.216.34"
    ∧ "93.184.216.34" ≠ "10.0.0.1" := by
  decide

/-- Witness for `pingOnce_receive_filtering`, discharging the non-matching
hypothesis at a foreign Echo Reply. -/
theorem pingOnce_receive_filtering_witness :
    pingOnceRecv 7 1 64 (pingOnceInit 1 "93.184.216.34" 64 64)
        [RecvEvent.packet (some ⟨ICMPMsgType.echoReply, ICMPBody.echo 9 1⟩)
          "1.2.3.4" 5 false]
      = pingOnceRecv 7 1 64 (pingOnceInit 1 "93.184.216.34" 64 64) [] :=
  (pingOnce_receive_filtering 7 1 64 "93.184.216.34" 64 64 "1.2.3.4" 5 false 9 1
      ICMPBody.otherBody []).2.1 (by decide)

/-- C7: the resolver cache stores and returns only clones.  Resolving a
hostname (not an IP literal) caches a clone of the result; mutating the
`Host` the caller received does not disturb the cache, and a second
`ResolveHost` of the same (hostname, IP-version) pair within the TTL returns
a fresh cell — at a different address than the first — whose value is the
originally resolved `Host`, regardless of the mutation. -/
theorem resolver_cache_clones (env : DNSEnv) (host : String) (ver : IPVersion)
    (ips : List IPAddr) (ip : IPAddr) (mutated : Host) (now later : Nat)
    (hlit : env.parseIP host = none)
    (hlook : env.lookupIP host = some ips)
    (hsel : selectIPByVersion ips ver = some ip)
    (httl : ¬ later > now + defaultDNSTTL) :
    resolveHost env now host ver emptyResolverState
      = ({ heap := [resolvedHost host ip, resolvedHost host ip],
           cache := [(cacheKey host ver, 1, now + defaultDNSTTL)] }, Except.ok 0)
    ∧ resolveHost env later host ver
        (writeHost { heap := [resolvedHost host ip, resolvedHost host ip],
                     cache := [(cacheKey host ver, 1, now + defaultDNSTTL)] } 0 mutated)
      = ({ heap := [mutated, resolvedHost host ip, resolvedHost host ip],
           cache := [(cacheKey host ver, 1, now + defaultDNSTTL)] }, Except.ok 2)
    ∧ readHost { heap := [mutated, resolvedHost host ip, resolvedHost host ip],
                 cache := [(cacheKey host ver, 1, now + defaultDNSTTL)] } 2
        = resolvedHost host ip
    ∧ readHost { heap := [mutated, resolvedHost host ip, resolvedHost host ip],
                 cache := [(cacheKey host ver, 1, now + defaultDNSTTL)] } 0
        = mutated := by
  cases ips with
  | nil => simp [selectIPByVersion] at hsel
  | cons ip0 rest =>
    refine ⟨?_, ?_, rfl, rfl⟩
    · simp [resolveHost, hlit, hlook, hsel, emptyResolverState, dnsCacheGet, cacheFind,
        allocHost, cloneHost, readHost, dnsCacheSet, cacheErase, resolvedHost]
    · simp only [resolveHost, hlit, writeHost]
      simp only [List.set_cons_zero]
      simp [dnsCacheGet, cacheFind, if_neg httl, cloneHost, readHost, allocHost]

/-- Witness for `resolver_cache_clones` at a one-address lookup environment. -/
theorem resolver_cache_clones_witness :
    resolveHost dnsEnvOneA 0 "example.com" IPVersion.vAny emptyResolverState
      = ({ heap := [resolvedHost "example.com" { str := "93.184.216.34", isV4 := true },
                    resolvedHost "example.com" { str := "93.184.216.34", isV4 := true }],
           cache := [(cacheKey "example.com" IPVersion.vAny, 1, 0 + defaultDNSTTL)] },
         Except.ok 0) :=
  (resolver_cache_clones dnsEnvOneA "example.com" IPVersion.vAny
      [{ str := "93.184.216.34", isV4 := true }] { str := "93.184.216.34", isV4 := true }
      { hostname := "evil", ip := "0.0.0.0", ipVersion := IPVersion.v4, port := 1 }
      0 100 rfl rfl rfl (by decide)).1

lemma traceHopStep_dest (env : TraceEnv) (targetIP : String) (ttl : Int) (i : Nat)
    (hop : TraceHop)
    (hinv : hop.isDestination = true →
      ∃ p ∈ hop.probes, p.status = Status.success ∧ p.ip = targetIP) :
    (traceHopStep env targetIP ttl i hop).isDestination = true →
      ∃ p ∈ (traceHopStep env targetIP ttl i hop).probes,
        p.status = Status.success ∧ p.ip = targetIP := by
  unfold traceHopStep
  by_cases hc : (env.probe ttl (i + 1)).status = Status.success
      ∧ ({ hop with probes := hop.probes ++ [env.probe ttl (i + 1)] } : TraceHop).ip = ""
  · rw [if_pos hc]
    by_cases ht : (env.probe ttl (i + 1)).ip = targetIP
    · rw [if_pos ht]
      intro _
      exact ⟨env.probe ttl (i + 1), by simp, hc.1, ht⟩
    · rw [if_neg ht]
      intro hd
      simp only at hd
      obtain ⟨p, hp, hps, hpt⟩ := hinv hd
      exact ⟨p, by simp [hp], hps, hpt⟩
  · rw [if_neg hc]
    intro hd
    simp only at hd
    obtain ⟨p, hp, hps, hpt⟩ := hinv hd
    exact ⟨p, by simp [hp], hps, hpt⟩

lemma traceHopGo_dest (env : TraceEnv) (targetIP : String) (ttl : Int) :
    ∀ (q i : Nat) (hop : TraceHop),
      (hop.isDestination = true →
        ∃ p ∈ hop.probes, p.status = Status.success ∧ p.ip = targetIP) →
      ((traceHopGo env targetIP ttl q i hop).isDestination = true →
        ∃ p ∈ (traceHopGo env targetIP ttl q i hop).probes,
          p.status = Status.success ∧ p.ip = targetIP) := by
  intro q
  induction q with
  | zero => intro i hop hinv; exact hinv
  | succ q ih =>
    intro i hop hinv
    exact ih (i + 1) (traceHopStep env targetIP ttl i hop)
      (traceHopStep_dest env targetIP ttl i hop hinv)

lemma traceHop_dest (env : TraceEnv) (targetIP : String) (ttl : Int) (queries : Int) :
    (traceHop env targetIP ttl queries).isDestination = true →
      ∃ p ∈ (traceHop env targetIP ttl queries).probes,
        p.status = Status.success ∧ p.ip = targetIP := by
  apply traceHopGo_dest
  intro h
  simp at h

lemma traceLoopGo_succ (env : TraceEnv) (targetIP : String) (opts : TraceOptions)
    (fuel : Nat) (ttl : Int) (res : TraceResult) :
    traceLoopGo env targetIP opts (fuel + 1) ttl res
      = (if (traceHop env targetIP ttl opts.queries).isDestination then
           { res.addHop (traceHop env targetIP ttl opts.queries) with
               reachedDestination := true }
         else if (traceHop env targetIP ttl opts.queries).getSuccessCount = 0
                ∧ ttl > opts.firstTTL + 5
                ∧ lastFiveAllFailed
                    (res.addHop (traceHop env targetIP ttl opts.queries)).hops then
           res.addHop (traceHop env targetIP ttl opts.queries)
         else
           traceLoopGo env targetIP opts fuel (ttl + 1)
             (res.addHop (traceHop env targetIP ttl opts.queries))) := rfl

lemma addHop_hops (res : TraceResult) (hop : TraceHop) :
    (res.addHop hop).hops = res.hops ++ [hop] := rfl

lemma addHop_hopCount (res : TraceResult) (hop : TraceHop) :
    (res.addHop hop).hopCount = res.hops.length + 1 := rfl

lemma addHop_reached (res : TraceResult) (hop : TraceHop) :
    (res.addHop hop).reachedDestination = res.reachedDestination := rfl

lemma addHop_error (res : TraceResult) (hop : TraceHop) :
    (res.addHop hop).error = res.error := rfl

lemma addHop_status (res : TraceResult) (hop : TraceHop) :
    (res.addHop hop).status = res.status := rfl

lemma traceLoopGo_hopCount (env : TraceEnv) (targetIP : String) (opts : TraceOptions) :
    ∀ (fuel : Nat) (ttl : Int) (res : TraceResult),
      res.hopCount = res.hops.length →
      (traceLoopGo env targetIP opts fuel ttl res).hopCount
        = (traceLoopGo env targetIP opts fuel ttl res).hops.length := by
  intro fuel
  induction fuel with
  | zero => intro ttl res h; exact h
  | succ fuel ih =>
    intro ttl res h
    rw [traceLoopGo_succ]
    split
    · simp [addHop_hops, addHop_hopCount]
    · split
      · simp [addHop_hops, addHop_hopCount]
      · exact ih (ttl + 1) _ (by simp [addHop_hops, addHop_hopCount])

lemma traceLoopGo_error (env : TraceEnv) (targetIP : String) (opts : TraceOptions) :
    ∀ (fuel : Nat) (ttl : Int) (res : TraceResult),
      (traceLoopGo env targetIP opts fuel ttl res).error = res.error := by
  intro fuel
  induction fuel with
  | zero => intro ttl res; rfl
  | succ fuel ih =>
    intro ttl res
    rw [traceLoopGo_succ]
    split
    · simp [addHop_error]
    · split
      · simp [addHop_error]
      · rw [ih (ttl + 1)]
        simp [addHop_error]

lemma traceLoopGo_struct (env : TraceEnv) (targetIP : String) (opts : TraceOptions) :
    ∀ (fuel : Nat) (ttl : Int) (res : TraceResult),
      res.reachedDestination = false →
      (∀ h ∈ res.hops, h.isDestination = false) →
      ((traceLoopGo env targetIP opts fuel ttl res).reachedDestination = true →
        ∃ pre hop, (traceLoopGo env targetIP opts fuel ttl res).hops = pre ++ [hop]
          ∧ hop.isDestination = true ∧ ∀ h ∈ pre, h.isDestination = false)
      ∧ ((traceLoopGo env targetIP opts fuel ttl res).reachedDestination = false →
        ∀ h ∈ (traceLoopGo env targetIP opts fuel ttl res).hops,
          h.isDestination = false) := by
  intro fuel
  induction fuel with
  | zero =>
    intro ttl res h1 h2
    rw [show traceLoopGo env targetIP opts 0 ttl res = res from rfl]
    refine ⟨fun hr => ?_, fun _ => h2⟩
    rw [h1] at hr
    cases hr
  | succ fuel ih =>
    intro ttl res h1 h2
    rw [traceLoopGo_succ]
    by_cases hd : (traceHop env targetIP ttl opts.queries).isDestination = true
    · rw [if_pos hd]
      constructor
      · intro _
        refine ⟨res.hops, traceHop env targetIP ttl opts.queries, ?_, hd, h2⟩
        simp [addHop_hops]
      · intro hco
        simp at hco
    · have hd' : (traceHop env targetIP ttl opts.queries).isDestination = false := by
        revert hd
        cases (traceHop env targetIP ttl opts.queries).isDestination <;> simp
      rw [if_neg hd]
      have hall : ∀ h ∈ (res.addHop (traceHop env targetIP ttl opts.queries)).hops,
          h.isDestination = false := by
        intro h hh
        rw [addHop_hops] at hh
        rcases List.mem_append.mp hh with hh | hh
        · exact h2 h hh
        · rw [List.mem_singleton.mp hh]
          exact hd'
      split
      · refine ⟨fun hr => ?_, fun _ => hall⟩
        rw [addHop_reached, h1] at hr
        cases hr
      · exact ih (ttl + 1) _ (by rw [addHop_reached]; exact h1) hall

lemma traceLoopGo_hops_dest (env : TraceEnv) (targetIP : String) (opts : TraceOptions) :
    ∀ (fuel : Nat) (ttl : Int) (res : TraceResult),
      (∀ h ∈ res.hops, h.isDestination = true →
        ∃ p ∈ h.probes, p.status = Status.success ∧ p.ip = targetIP) →
      ∀ h ∈ (traceLoopGo env targetIP opts fuel ttl res).hops,
        h.isDestination = true →
        ∃ p ∈ h.probes, p.status = Status.success ∧ p.ip = targetIP := by
  intro fuel
  induction fuel with
  | zero => intro ttl res hinv; exact hinv
  | succ fuel ih =>
    intro ttl res hinv
    have hext : ∀ h ∈ (res.addHop (traceHop env targetIP ttl opts.queries)).hops,
        h.isDestination = true →
        ∃ p ∈ h.probes, p.status = Status.success ∧ p.ip = targetIP := by
      intro h hh
      rw [addHop_hops] at hh
      rcases List.mem_append.mp hh with hh | hh
      · exact hinv h hh
      · rw [List.mem_singleton.mp hh]
        exact traceHop_dest env targetIP ttl opts.queries
    rw [traceLoopGo_succ]
    split
    · exact hext
    · split
      · exact hext
      · exact ih (ttl + 1) _ hext

lemma icmpTrace_proj (env : TraceEnv) (targetIP : String) (opts : TraceOptions) :
    (icmpTrace env targetIP opts).hops
        = (traceLoopGo env targetIP opts (opts.maxHops - opts.firstTTL + 1).toNat
            opts.firstTTL traceInit).hops
    ∧ (icmpTrace env targetIP opts).reachedDestination
        = (traceLoopGo env targetIP opts (opts.maxHops - opts.firstTTL + 1).toNat
            opts.firstTTL traceInit).reachedDestination
    ∧ (icmpTrace env targetIP opts).hopCount
        = (traceLoopGo env targetIP opts (opts.maxHops - opts.firstTTL + 1).toNat
            opts.firstTTL traceInit).hopCount
    ∧ (icmpTrace env targetIP opts).error
        = (traceLoopGo env targetIP opts (opts.maxHops - opts.firstTTL + 1).toNat
            opts.firstTTL traceInit).error := by
  simp only [icmpTrace]
  split
  · exact ⟨rfl, rfl, rfl, rfl⟩
  · split
    · exact ⟨rfl, rfl, rfl, rfl⟩
    · exact ⟨rfl, rfl, rfl, rfl⟩

/-- C8: in every trace produced by `ICMPTracer.Trace`, a hop is marked as
the destination only on the strength of a successful probe whose responder
IP equals the resolved target IP; `HopCount` always equals the number of
recorded hops; every hop other than the last has `IsDestination = false`
(once a destination hop is recorded, no further hop is appended); and
`ReachedDestination` is set exactly when the final recorded hop is a
destination hop. -/
theorem trace_destination_recording (env : TraceEnv) (targetIP : String)
    (opts : TraceOptions) :
    (icmpTrace env targetIP opts).hopCount = (icmpTrace env targetIP opts).hops.length
    ∧ (∀ h ∈ (icmpTrace env targetIP opts).hops, h.isDestination = true →
        ∃ p ∈ h.probes, p.status = Status.success ∧ p.ip = targetIP)
    ∧ (∀ h ∈ (icmpTrace env targetIP opts).hops.dropLast, h.isDestination = false)
    ∧ ((icmpTrace env targetIP opts).reachedDestination = true →
        ∃ pre hop, (icmpTrace env targetIP opts).hops = pre ++ [hop]
          ∧ hop.isDestination = true) := by
  obtain ⟨hh, hr, hc, _⟩ := icmpTrace_proj env targetIP opts
  have hstruct := traceLoopGo_struct env targetIP opts
    (opts.maxHops - opts.firstTTL + 1).toNat opts.firstTTL traceInit rfl
    (by intro h hh'; exact absurd hh' (List.not_mem_nil h))
  refine ⟨?_, ?_, ?_, ?_⟩
  · rw [hc, hh]
    exact traceLoopGo_hopCount env targetIP opts _ _ _ rfl
  · rw [hh]
    exact traceLoopGo_hops_dest env targetIP opts _ _ _
      (by intro h hh'; exact absurd hh' (List.not_mem_nil h))
  · rw [hh]
    by_cases hrd : (traceLoopGo env targetIP opts (opts.maxHops - opts.firstTTL + 1).toNat
        opts.firstTTL traceInit).reachedDestination = true
    · obtain ⟨pre, hop, he, _, hpre⟩ := hstruct.1 hrd
      rw [he, List.dropLast_concat]
      exact hpre
    · have hrd' : (traceLoopGo env targetIP opts (opts.maxHops - opts.firstTTL + 1).toNat
          opts.firstTTL traceInit).reachedDestination = false := by
        revert hrd
        cases (traceLoopGo env targetIP opts (opts.maxHops - opts.firstTTL + 1).toNat
          opts.firstTTL traceInit).reachedDestination <;> simp
      intro h hmem
      exact hstruct.2 hrd' h ((List.dropLast_sublist _).subset hmem)
  · rw [hr, hh]
    intro hrd
    obtain ⟨pre, hop, he, hdst, _⟩ := hstruct.1 hrd
    exact ⟨pre, hop, he, hdst⟩

/-- Witness for `trace_destination_recording` at a concrete all-timeout
trace. -/
theorem trace_destination_recording_witness :
    (icmpTrace traceEnvAllFail "8.8.8.8" traceOptsOneQuery).hopCount
      = (icmpTrace traceEnvAllFail "8.8.8.8" traceOptsOneQuery).hops.length :=
  (trace_destination_recording traceEnvAllFail "8.8.8.8" traceOptsOneQuery).1

lemma traceHopStep_fail (env : TraceEnv) (targetIP : String) (ttl : Int) (i : Nat)
    (hop : TraceHop) (hf : (env.probe ttl (i + 1)).status ≠ Status.success) :
    (traceHopStep env targetIP ttl i hop).getSuccessCount = hop.getSuccessCount
    ∧ (traceHopStep env targetIP ttl i hop).isDestination = hop.isDestination := by
  unfold traceHopStep
  rw [if_neg (fun hc => hf hc.1)]
  constructor
  · simp [TraceHop.getSuccessCount, List.filter_append, hf]
  · rfl

lemma traceHopGo_fail (env : TraceEnv) (targetIP : String) (ttl : Int)
    (hf : ∀ (t : Int) (q : Nat), (env.probe t q).status ≠ Status.success) :
    ∀ (q i : Nat) (hop : TraceHop),
      (traceHopGo env targetIP ttl q i hop).getSuccessCount = hop.getSuccessCount
      ∧ (traceHopGo env targetIP ttl q i hop).isDestination = hop.isDestination := by
  intro q
  induction q with
  | zero => intro i hop; exact ⟨rfl, rfl⟩
  | succ q ih =>
    intro i hop
    have hstep := traceHopStep_fail env targetIP ttl i hop (hf ttl (i + 1))
    have hrec := ih (i + 1) (traceHopStep env targetIP ttl i hop)
    exact ⟨hrec.1.trans hstep.1, hrec.2.trans hstep.2⟩

lemma traceHop_fail (env : TraceEnv) (targetIP : String) (ttl : Int) (queries : Int)
    (hf : ∀ (t : Int) (q : Nat), (env.probe t q).status ≠ Status.success) :
    (traceHop env targetIP ttl queries).getSuccessCount = 0
    ∧ (traceHop env targetIP ttl queries).isDestination = false := by
  have := traceHopGo_fail env targetIP ttl hf queries.toNat 0
    { ttl := ttl, probes := [], ip := "", hostname := "", isDestination := false }
  exact ⟨this.1, this.2⟩

lemma traceLoopGo_allfail (env : TraceEnv) (targetIP : String) (opts : TraceOptions)
    (hf : ∀ (t : Int) (q : Nat), (env.probe t q).status ≠ Status.success) :
    ∀ (fuel : Nat) (ttl : Int) (res : TraceResult),
      res.reachedDestination = false →
      (∀ h ∈ res.hops, h.getSuccessCount = 0) →
      (traceLoopGo env targetIP opts fuel ttl res).hops.length
          = res.hops.length + min fuel ((opts.firstTTL + 6 - ttl).toNat + 1)
      ∧ (traceLoopGo env targetIP opts fuel ttl res).reachedDestination = false := by
  intro fuel
  induction fuel with
  | zero =>
    intro ttl res h1 h2
    rw [show traceLoopGo env targetIP opts 0 ttl res = res from rfl]
    exact ⟨by simp, h1⟩
  | succ fuel ih =>
    intro ttl res h1 h2
    have hhop := traceHop_fail env targetIP ttl opts.queries hf
    rw [traceLoopGo_succ]
    rw [if_neg (by rw [hhop.2]; simp)]
    have hall : ∀ h ∈ (res.addHop (traceHop env targetIP ttl opts.queries)).hops,
        h.getSuccessCount = 0 := by
      intro h hh
      rw [addHop_hops] at hh
      rcases List.mem_append.mp hh with hh | hh
      · exact h2 h hh
      · rw [List.mem_singleton.mp hh]
        exact hhop.1
    by_cases hgt : ttl > opts.firstTTL + 5
    · have hl5 : lastFiveAllFailed
          (res.addHop (traceHop env targetIP ttl opts.queries)).hops = true := by
        unfold lastFiveAllFailed
        rw [List.all_eq_true]
        intro h hhd
        have hmem := List.mem_of_mem_drop hhd
        simp [hall h hmem]
      rw [if_pos ⟨hhop.1, hgt, hl5⟩]
      constructor
      · rw [addHop_hops]
        simp only [List.length_append, List.length_singleton]
        omega
      · rw [addHop_reached]
        exact h1
    · rw [if_neg (fun hcon => hgt hcon.2.1)]
      have hrec := ih (ttl + 1) _ (by rw [addHop_reached]; exact h1) hall
      refine ⟨?_, hrec.2⟩
      rw [hrec.1, addHop_hops]
      simp only [List.length_append, List.length_singleton]
      omega

/-- C9 (amended): with no successful probe anywhere and
`MaxHops >= FirstTTL + 6`, the tracer's TTL loop stops advancing only once
the current TTL *exceeds* `FirstTTL + 5` — that is, after the **seventh**
attempted hop (not after `FirstTTL+5` hops) — when the last five recorded
hops all had zero successful probes; the early exit is non-fatal: the
partial result is returned with a `nil` error and a `Timeout` status, not
`Failure`. -/
theorem trace_early_exit (env : TraceEnv) (targetIP : String) (opts : TraceOptions)
    (hf : ∀ (t : Int) (q : Nat), (env.probe t q).status ≠ Status.success)
    (hmax : opts.firstTTL + 6 ≤ opts.maxHops) :
    (icmpTrace env targetIP opts).hops.length = 7
    ∧ (icmpTrace env targetIP opts).hopCount = 7
    ∧ (icmpTrace env targetIP opts).status = Status.timeout
    ∧ (icmpTrace env targetIP opts).error = none
    ∧ (icmpTrace env targetIP opts).reachedDestination = false := by
  obtain ⟨hh, hr, hc, he⟩ := icmpTrace_proj env targetIP opts
  have hlf := traceLoopGo_allfail env targetIP opts hf
    (opts.maxHops - opts.firstTTL + 1).toNat opts.firstTTL traceInit rfl
    (by intro h hh'; exact absurd hh' (List.not_mem_nil h))
  have hfuel : 7 ≤ (opts.maxHops - opts.firstTTL + 1).toNat := by omega
  have hlen : (traceLoopGo env targetIP opts (opts.maxHops - opts.firstTTL + 1).toNat
      opts.firstTTL traceInit).hops.length = 7 := by
    rw [hlf.1]
    show 0 + min ((opts.maxHops - opts.firstTTL + 1).toNat)
        ((opts.firstTTL + 6 - opts.firstTTL).toNat + 1) = 7
    omega
  have hcnt : (traceLoopGo env targetIP opts (opts.maxHops - opts.firstTTL + 1).toNat
      opts.firstTTL traceInit).hopCount = 7 := by
    rw [traceLoopGo_hopCount env targetIP opts _ _ _ rfl]
    exact hlen
  refine ⟨by rw [hh]; exact hlen, by rw [hc]; exact hcnt, ?_,
    by rw [he, traceLoopGo_error]; rfl, by rw [hr]; exact hlf.2⟩
  simp only [icmpTrace]
  rw [if_neg (by intro hcon; rw [hcnt] at hcon; exact absurd hcon.2 (by decide))]
  rw [if_pos (by rw [hlf.2]; rfl)]

/-- C9 counterexample: `FirstTTL = 1`, one query per hop, every probe times
out.  After six hops have been attempted (six = `FirstTTL + 5`) with every
one of them — in particular the last five — showing zero successful probes,
the loop does *not* stop: the trace records a seventh hop, because the
source requires `ttl > FirstTTL+5` before consulting the
last-five-failed scan. -/
theorem trace_early_exit_counterexample :
    (icmpTrace traceEnvAllFail "8.8.8.8" traceOptsOneQuery).hops.length = 7
    ∧ ((icmpTrace traceEnvAllFail "8.8.8.8" traceOptsOneQuery).hops.take 6).length = 6
    ∧ ((icmpTrace traceEnvAllFail "8.8.8.8" traceOptsOneQuery).hops.take 6).all
        (fun h => h.getSuccessCount = 0) = true := by
  decide

/-- Witness for `trace_early_exit` at the concrete all-timeout trace. -/
theorem trace_early_exit_witness :
    (icmpTrace traceEnvAllFail "8.8.8.8" traceOptsOneQuery).status = Status.timeout
    ∧ (icmpTrace traceEnvAllFail "8.8.8.8" traceOptsOneQuery).error = none := by
  have hf : ∀ (t : Int) (q : Nat),
      (traceEnvAllFail.probe t q).status ≠ Status.success := by
    intro t q
    simp [traceEnvAllFail]
  exact ⟨(trace_early_exit traceEnvAllFail "8.8.8.8" traceOptsOneQuery hf
      (by decide)).2.2.1,
    (trace_early_exit traceEnvAllFail "8.8.8.8" traceOptsOneQuery hf
      (by decide)).2.2.2.1⟩

/-- C10: in the ICMP tracer's `probeOnce`, a Time-Exceeded response is a
successful probe: the returned `TraceProbe` keeps its initial
`Status = Success` and records the RTT and the responding router's address;
`GetSuccessCount` counts exactly the probes with `Status = Success`, so an
intermediate router's answer counts as a success and a hop with zero
successful probes is one whose probes all ended without a terminating ICMP
answer (timeout, unreachable, or error). -/
theorem trace_time_exceeded_success (id seq : Nat) (peer : String) (rtt : Nat)
    (body : ICMPBody) (pd : Bool) (events : List RecvEvent) :
    probeOnceRecv id seq (probeOnceInit seq)
        (RecvEvent.packet (some ⟨ICMPMsgType.timeExceeded, body⟩) peer rtt pd :: events)
      = some { probeOnceInit seq with rtt := rtt, ip := peer }
    ∧ ({ probeOnceInit seq with rtt := rtt, ip := peer } : TraceProbe).status
        = Status.success
    ∧ (∀ hop : TraceHop,
        (hop.getSuccessCount = 0 ↔ ∀ p ∈ hop.probes, p.status ≠ Status.success))
    ∧ (∀ hop : TraceHop, ∀ p ∈ hop.probes, p.status = Status.success →
        0 < hop.getSuccessCount) := by
  refine ⟨rfl, rfl, ?_, ?_⟩
  · intro hop
    simp [TraceHop.getSuccessCount, List.length_eq_zero, List.filter_eq_nil_iff]
  · intro hop p hp hs
    have hmem : p ∈ hop.probes.filter fun q => q.status = Status.success :=
      List.mem_filter.mpr ⟨hp, by simp [hs]⟩
    exact List.length_pos.mpr (List.ne_nil_of_mem hmem)

/-- Witness for `trace_time_exceeded_success`, discharging the membership and
success hypotheses at a router-answered hop. -/
theorem trace_time_exceeded_success_witness :
    0 < TraceHop.getSuccessCount
        ⟨1, [⟨1, "10.0.0.1", 9, Status.success, none⟩], "10.0.0.1", "router", false⟩ :=
  (trace_time_exceeded_success 7 1 "10.0.0.1" 9 ICMPBody.otherBody false []).2.2.2
    ⟨1, [⟨1, "10.0.0.1", 9, Status.success, none⟩], "10.0.0.1", "router", false⟩
    ⟨1, "10.0.0.1", 9, Status.success, none⟩ (by simp) rfl

end Ntx
